import Mathlib

/-!
Shallow embedding of `src/components/projects/TimelineGantt.tsx`.

Dates are modelled as integer day numbers: day `0` is 1970-01-01, which was
a Thursday (JavaScript `getDay` of the epoch is `4`).  All date arithmetic in
the component is whole-day arithmetic (`startOfWeek`, `addDays`,
`differenceInDays`, `getTime` comparisons), so a calendar date is one integer.

`startOfWeek` mirrors date-fns `startOfWeek(d, { weekStartsOn: 1 })`: it
subtracts `(getDay(d) - 1 + 7) % 7` days, i.e. it returns the greatest Monday
that is `≤ d`.  With `getDay d = (d + 4) % 7` this simplifies to
`d - (d + 3) % 7` (Euclidean remainder).

The component state is the nullable `rangeStart` anchor (`Option ℤ`); the
three button handlers become a step function on that state, and `render`
summarises the produced output tree (empty placeholder versus grid with
overlay flag, today-marker index and per-task bar geometry).
-/

namespace TimelineGantt

/-- date-fns `startOfWeek(d, { weekStartsOn: 1 })`: the greatest Monday `≤ d`. -/
def startOfWeek (d : ℤ) : ℤ := d - (d + 3) % 7

/-- date-fns `addDays`. -/
def addDays (d : ℤ) (n : ℤ) : ℤ := d + n

/-- date-fns `differenceInDays` (exact on whole-day dates). -/
def differenceInDays (a b : ℤ) : ℤ := a - b

/-- date-fns `isWithinInterval`: the interval is closed on both ends. -/
def isWithinInterval (t lo hi : ℤ) : Bool := decide (lo ≤ t) && decide (t ≤ hi)

/-- The `clamp` helper of the component: `Math.max(min, Math.min(max, n))`. -/
def clamp {α : Type} [LinearOrder α] (n mn mx : α) : α := max mn (min mx n)

/-- A `TimelineTask` record: id, name, start date, end date. -/
structure TimelineTask where
  id : ℤ
  name : String
  startDate : ℤ
  endDate : ℤ
deriving DecidableEq

/-- `tasks.reduce((acc, t) => (t.startDate < acc ? t.startDate : acc), tasks[0].startDate)`. -/
def minDate : List TimelineTask → ℤ
  | [] => 0
  | t :: ts =>
      (t :: ts).foldl (fun acc u => if u.startDate < acc then u.startDate else acc) t.startDate

/-- `tasks.reduce((acc, t) => (t.endDate > acc ? t.endDate : acc), tasks[0].endDate)`. -/
def maxDate : List TimelineTask → ℤ
  | [] => 0
  | t :: ts =>
      (t :: ts).foldl (fun acc u => if u.endDate > acc then u.endDate else acc) t.endDate

/-- `startOfWeek(minDate, { weekStartsOn: 1 })`. -/
def minWeekStart (ts : List TimelineTask) : ℤ := startOfWeek (minDate ts)

/-- `startOfWeek(maxDate, { weekStartsOn: 1 })`. -/
def maxWeekStart (ts : List TimelineTask) : ℤ := startOfWeek (maxDate ts)

/-- `rangeStart ?? minWeekStart`. -/
def effectiveRangeStart (ts : List TimelineTask) (rangeStart : Option ℤ) : ℤ :=
  rangeStart.getD (minWeekStart ts)

/-- `startOfWeek(effectiveRangeStart, { weekStartsOn: 1 })`. -/
def currentWeekStart (ts : List TimelineTask) (rangeStart : Option ℤ) : ℤ :=
  startOfWeek (effectiveRangeStart ts rangeStart)

/-- The `clampToRange` closure of the component. -/
def clampToRange (ts : List TimelineTask) (date : ℤ) : ℤ :=
  if date < minWeekStart ts then minWeekStart ts
  else if date > maxWeekStart ts then maxWeekStart ts
  else date

/-- The seven visible days: `Array.from({length: 7}).map((_, i) => addDays(start, i))`
with `start = startOfWeek(effectiveRangeStart)`. -/
def days (ts : List TimelineTask) (rangeStart : Option ℤ) : List ℤ :=
  (List.range 7).map fun i => addDays (startOfWeek (effectiveRangeStart ts rangeStart)) i

/-- `rangeStartDate = days[0]`. -/
def rangeStartDate (ts : List TimelineTask) (rangeStart : Option ℤ) : ℤ :=
  (days ts rangeStart).getD 0 0

/-- `rangeEndDate = addDays(days[days.length - 1], 1)`. -/
def rangeEndDate (ts : List TimelineTask) (rangeStart : Option ℤ) : ℤ :=
  addDays ((days ts rangeStart).getD ((days ts rangeStart).length - 1) 0) 1

/-- `isWithinInterval(today, { start: days[0], end: addDays(days[days.length-1], 1) })`. -/
def todayInRange (ts : List TimelineTask) (rangeStart : Option ℤ) (today : ℤ) : Bool :=
  isWithinInterval today (rangeStartDate ts rangeStart) (rangeEndDate ts rangeStart)

/-- The today-marker day index: clamped offset of today when `todayInRange`,
`Math.floor(days.length / 2)` otherwise. -/
def todayIndex (ts : List TimelineTask) (rangeStart : Option ℤ) (today : ℤ) : ℤ :=
  if todayInRange ts rangeStart today then
    clamp (differenceInDays today (rangeStartDate ts rangeStart)) 0
      (((days ts rangeStart).length : ℤ) - 1)
  else ((days ts rangeStart).length : ℤ) / 2

/-- `tasks.some(t => t.startDate < rangeEndDate && t.endDate >= rangeStartDate)`. -/
def hasTasksInRange (ts : List TimelineTask) (rangeStart : Option ℤ) : Bool :=
  ts.any fun t =>
    decide (t.startDate < rangeEndDate ts rangeStart) &&
    decide (t.endDate ≥ rangeStartDate ts rangeStart)

/-- `canGoPrevious = currentWeekStart.getTime() > minWeekStart.getTime()`. -/
def canGoPrevious (ts : List TimelineTask) (rangeStart : Option ℤ) : Bool :=
  decide (currentWeekStart ts rangeStart > minWeekStart ts)

/-- `canGoNext = currentWeekStart.getTime() < maxWeekStart.getTime()`. -/
def canGoNext (ts : List TimelineTask) (rangeStart : Option ℤ) : Bool :=
  decide (currentWeekStart ts rangeStart < maxWeekStart ts)

/-- `handlePrevious`: new anchor value produced by the `setRangeStart` updater. -/
def handlePrevious (ts : List TimelineTask) (prev : Option ℤ) : Option ℤ :=
  some (clampToRange ts (addDays (prev.getD (minWeekStart ts)) (-7)))

/-- `handleNext`: new anchor value produced by the `setRangeStart` updater. -/
def handleNext (ts : List TimelineTask) (prev : Option ℤ) : Option ℤ :=
  some (clampToRange ts (addDays (prev.getD (minWeekStart ts)) 7))

/-- `handleToday`: stores `startOfWeek(today)` with no clamping. -/
def handleToday (today : ℤ) : Option ℤ :=
  some (startOfWeek today)

/-- The three navigation buttons. -/
inductive Action where
  | previous
  | next
  | goToday
deriving DecidableEq

/-- One button click: the anchor state transition of the component. -/
def step (ts : List TimelineTask) (today : ℤ) (rangeStart : Option ℤ) :
    Action → Option ℤ
  | Action.previous => handlePrevious ts rangeStart
  | Action.next => handleNext ts rangeStart
  | Action.goToday => handleToday today

/-- Anchor states reachable from the initial `null` anchor by button clicks;
the real current date may differ from click to click. -/
inductive Reachable (ts : List TimelineTask) : Option ℤ → Prop where
  | init : Reachable ts none
  | act {rangeStart : Option ℤ} (h : Reachable ts rangeStart) (today : ℤ) (a : Action) :
      Reachable ts (step ts today rangeStart a)

/-- `totalDays = days.length` (always 7). -/
def totalDays : ℕ := 7

/-- `startOffset = differenceInDays(t.startDate, days[0])`. -/
def startOffset (t : TimelineTask) (day0 : ℤ) : ℤ := differenceInDays t.startDate day0

/-- `endOffset = differenceInDays(t.endDate, days[0])`. -/
def endOffset (t : TimelineTask) (day0 : ℤ) : ℤ := differenceInDays t.endDate day0

/-- `leftPct = clamp((startOffset / totalDays) * 100, 0, 100)`. -/
def leftPct (t : TimelineTask) (day0 : ℤ) : ℚ :=
  clamp (((startOffset t day0 : ℤ) : ℚ) / (totalDays : ℚ) * 100) 0 100

/-- `rightPct = clamp((endOffset / totalDays) * 100, 0, 100)`. -/
def rightPct (t : TimelineTask) (day0 : ℤ) : ℚ :=
  clamp (((endOffset t day0 : ℤ) : ℚ) / (totalDays : ℚ) * 100) 0 100

/-- `minWidthPct = (1 / totalDays) * 100`. -/
def minWidthPct : ℚ := (1 / (totalDays : ℚ)) * 100

/-- `widthPct = clamp(rightPct - leftPct + minWidthPct, minWidthPct, 100)`. -/
def widthPct (t : TimelineTask) (day0 : ℤ) : ℚ :=
  clamp (rightPct t day0 - leftPct t day0 + minWidthPct) minWidthPct 100

/-- Summary of the rendered output tree: either the empty-task placeholder, or
the grid with its day headers, the no-tasks overlay flag, the today-marker
index and the `(leftPct, widthPct)` geometry of each task bar. -/
inductive RenderOutput where
  | emptyPlaceholder (message : String)
  | grid (ds : List ℤ) (noTasksOverlay : Bool) (todayIdx : ℤ) (bars : List (ℚ × ℚ))
deriving DecidableEq

/-- The render function of the component: early return on `tasks.length === 0`,
otherwise the grid (the day row is always rendered; the overlay is shown
exactly when `!hasTasksInRange`). -/
def render (ts : List TimelineTask) (rangeStart : Option ℤ) (today : ℤ) : RenderOutput :=
  if ts.length = 0 then RenderOutput.emptyPlaceholder "No tasks scheduled"
  else
    RenderOutput.grid (days ts rangeStart) (!hasTasksInRange ts rangeStart)
      (todayIndex ts rangeStart today)
      (ts.map fun t =>
        (leftPct t (rangeStartDate ts rangeStart), widthPct t (rangeStartDate ts rangeStart)))

/-! ### Basic facts about `startOfWeek` and the derived values -/

/-- `startOfWeek` never moves a date forward. -/
lemma startOfWeek_le (d : ℤ) : startOfWeek d ≤ d := by
  unfold startOfWeek; omega

/-- `startOfWeek` is idempotent. -/
lemma startOfWeek_idem (d : ℤ) : startOfWeek (startOfWeek d) = startOfWeek d := by
  unfold startOfWeek; omega

/-- `startOfWeek` is monotone. -/
lemma startOfWeek_mono {d e : ℤ} (h : d ≤ e) : startOfWeek d ≤ startOfWeek e := by
  unfold startOfWeek
  omega

/-- A date is week-aligned when it is its own week start (a Monday). -/
def Aligned (d : ℤ) : Prop := startOfWeek d = d

instance (d : ℤ) : Decidable (Aligned d) := by unfold Aligned; infer_instance

lemma aligned_startOfWeek (d : ℤ) : Aligned (startOfWeek d) := startOfWeek_idem d

lemma Aligned.add_seven {d : ℤ} (h : Aligned d) : Aligned (d + 7) := by
  unfold Aligned startOfWeek at h ⊢; omega

lemma Aligned.sub_seven {d : ℤ} (h : Aligned d) : Aligned (d - 7) := by
  unfold Aligned startOfWeek at h ⊢; omega

lemma aligned_minWeekStart (ts : List TimelineTask) : Aligned (minWeekStart ts) :=
  aligned_startOfWeek _

lemma aligned_maxWeekStart (ts : List TimelineTask) : Aligned (maxWeekStart ts) :=
  aligned_startOfWeek _

lemma clampToRange_aligned (ts : List TimelineTask) {d : ℤ} (h : Aligned d) :
    Aligned (clampToRange ts d) := by
  unfold clampToRange
  split
  · exact aligned_minWeekStart ts
  · split
    · exact aligned_maxWeekStart ts
    · exact h


/-- The min-reduce never exceeds its initial accumulator. -/
lemma foldl_startMin_le (l : List TimelineTask) (a : ℤ) :
    l.foldl (fun acc u => if u.startDate < acc then u.startDate else acc) a ≤ a := by
  induction l generalizing a with
  | nil => simp
  | cons u l ih =>
      simp only [List.foldl_cons]
      refine le_trans (ih _) ?_
      split <;> omega

/-- The max-reduce never drops below its initial accumulator. -/
lemma le_foldl_endMax (l : List TimelineTask) (a : ℤ) :
    a ≤ l.foldl (fun acc u => if u.endDate > acc then u.endDate else acc) a := by
  induction l generalizing a with
  | nil => simp
  | cons u l ih =>
      simp only [List.foldl_cons]
      refine le_trans ?_ (ih _)
      split <;> omega

/-- Under the data-model invariant `startDate ≤ endDate`, the extremal dates
of a non-empty task list are ordered. -/
lemma minDate_le_maxDate (ts : List TimelineTask) (hne : ts ≠ [])
    (hwf : ∀ t ∈ ts, t.startDate ≤ t.endDate) : minDate ts ≤ maxDate ts := by
  cases ts with
  | nil => exact absurd rfl hne
  | cons t l =>
      have h1 : minDate (t :: l) ≤ t.startDate := foldl_startMin_le (t :: l) t.startDate
      have h2 : t.endDate ≤ maxDate (t :: l) := le_foldl_endMax (t :: l) t.endDate
      have h3 : t.startDate ≤ t.endDate := hwf t (by simp)
      omega

lemma minWeekStart_le_maxWeekStart (ts : List TimelineTask) (hne : ts ≠ [])
    (hwf : ∀ t ∈ ts, t.startDate ≤ t.endDate) : minWeekStart ts ≤ maxWeekStart ts :=
  startOfWeek_mono (minDate_le_maxDate ts hne hwf)

/-- When the bounds are ordered, `clampToRange` lands inside them. -/
lemma clampToRange_bounds (ts : List TimelineTask)
    (h : minWeekStart ts ≤ maxWeekStart ts) (d : ℤ) :
    minWeekStart ts ≤ clampToRange ts d ∧ clampToRange ts d ≤ maxWeekStart ts := by
  unfold clampToRange
  split_ifs <;> omega

lemma days_length (ts : List TimelineTask) (rangeStart : Option ℤ) :
    (days ts rangeStart).length = 7 := by
  rfl

lemma days_getD (ts : List TimelineTask) (rangeStart : Option ℤ) (i : ℕ) (h : i < 7) :
    (days ts rangeStart).getD i 0 = startOfWeek (effectiveRangeStart ts rangeStart) + i := by
  unfold days addDays
  interval_cases i <;> rfl

lemma rangeStartDate_eq (ts : List TimelineTask) (rangeStart : Option ℤ) :
    rangeStartDate ts rangeStart = startOfWeek (effectiveRangeStart ts rangeStart) := by
  have h := days_getD ts rangeStart 0 (by norm_num)
  simpa [rangeStartDate] using h

lemma rangeEndDate_eq (ts : List TimelineTask) (rangeStart : Option ℤ) :
    rangeEndDate ts rangeStart = startOfWeek (effectiveRangeStart ts rangeStart) + 7 := by
  have h6 := days_getD ts rangeStart 6 (by norm_num)
  unfold rangeEndDate addDays
  rw [days_length]
  show (days ts rangeStart).getD 6 0 + 1 = _
  rw [h6]
  push_cast
  ring

lemma Aligned.addDays_seven {d : ℤ} (h : Aligned d) : Aligned (addDays d 7) := by
  unfold Aligned startOfWeek at h
  unfold addDays Aligned startOfWeek
  omega

lemma Aligned.addDays_neg_seven {d : ℤ} (h : Aligned d) : Aligned (addDays d (-7)) := by
  unfold Aligned startOfWeek at h
  unfold addDays Aligned startOfWeek
  omega

/-- A negative day offset is clamped to the left window edge. -/
lemma clamp_pct_nonpos {s : ℤ} (h : s < 0) :
    clamp ((s : ℚ) / (totalDays : ℚ) * 100) 0 100 = 0 := by
  have h1 : ((s : ℚ) : ℚ) < 0 := by exact_mod_cast h
  have h2 : (s : ℚ) / (totalDays : ℚ) < 0 := by
    refine div_neg_of_neg_of_pos h1 ?_
    norm_num [totalDays]
  have h3 : (s : ℚ) / (totalDays : ℚ) * 100 < 0 := by
    exact mul_neg_of_neg_of_pos h2 (by norm_num)
  unfold clamp
  rw [min_eq_right (le_of_lt (lt_of_lt_of_le h3 (by norm_num)))]
  exact max_eq_left (le_of_lt h3)

lemma leftPct_eq_zero {t : TimelineTask} {day0 : ℤ} (h : t.startDate < day0) :
    leftPct t day0 = 0 := by
  unfold leftPct startOffset differenceInDays
  exact clamp_pct_nonpos (by omega)

lemma rightPct_eq_zero {t : TimelineTask} {day0 : ℤ} (h : t.endDate < day0) :
    rightPct t day0 = 0 := by
  unfold rightPct endOffset differenceInDays
  exact clamp_pct_nonpos (by omega)

/-- The window end is seven days past the window start. -/
lemma rangeEndDate_eq_start_add_seven (ts : List TimelineTask) (rangeStart : Option ℤ) :
    rangeEndDate ts rangeStart = rangeStartDate ts rangeStart + 7 := by
  rw [rangeEndDate_eq, rangeStartDate_eq]

/-- A one-task sample project: task from Monday 1970-01-05 (day 4) to day 5. -/
def sampleTask : TimelineTask := { id := 0, name := "A", startDate := 4, endDate := 5 }

/-- A sample task placed on days 14-15, whose week bound is day 11. -/
def laterTask : TimelineTask := { id := 0, name := "B", startDate := 14, endDate := 15 }

/-! ### Claim theorems -/

/-- Claim C9: for the empty task list the component renders only the
"No tasks scheduled" placeholder; no day grid, overlay, marker or task bars
appear in the output, for any anchor state and any current date. -/
theorem empty_tasks_placeholder (rangeStart : Option ℤ) (today : ℤ) :
    render [] rangeStart today = RenderOutput.emptyPlaceholder "No tasks scheduled" := rfl

/-- Claim C4: the Today action stores the week start of the real current date
with no clamping: the new anchor is `startOfWeek today` independently of the
task list and of the previous anchor, hence also when that week start lies
outside `[minWeekStart, maxWeekStart]`; the stored value is week-aligned. -/
theorem today_sets_week_start_unclamped (ts : List TimelineTask) (today : ℤ)
    (rangeStart : Option ℤ) :
    step ts today rangeStart Action.goToday = some (startOfWeek today)
    ∧ handleToday today = some (startOfWeek today)
    ∧ step ts today rangeStart Action.goToday = step [] today none Action.goToday
    ∧ Aligned (startOfWeek today) :=
  ⟨rfl, rfl, rfl, aligned_startOfWeek today⟩

/-- Claim C8: for a non-empty task list the visible days are exactly seven
consecutive calendar days, the first being the (Monday-aligned) week start of
the effective anchor, where the effective anchor is the stored anchor when
non-null and `minWeekStart` otherwise. -/
theorem days_seven_consecutive (ts : List TimelineTask) (rangeStart : Option ℤ)
    (hne : ts ≠ []) :
    (days ts rangeStart).length = 7
    ∧ (∀ i : ℕ, i < 7 →
        (days ts rangeStart).getD i 0 = startOfWeek (effectiveRangeStart ts rangeStart) + i)
    ∧ Aligned ((days ts rangeStart).getD 0 0)
    ∧ effectiveRangeStart ts rangeStart = rangeStart.getD (minWeekStart ts) := by
  refine ⟨days_length ts rangeStart, days_getD ts rangeStart, ?_, rfl⟩
  rw [days_getD ts rangeStart 0 (by norm_num)]
  simpa using aligned_startOfWeek (effectiveRangeStart ts rangeStart)

/-- Witness for C8 at the one-task list with unset anchor. -/
theorem days_seven_consecutive_witness :
    (days [sampleTask] none).length = 7
    ∧ (∀ i : ℕ, i < 7 →
        (days [sampleTask] none).getD i 0 = startOfWeek (effectiveRangeStart [sampleTask] none) + i)
    ∧ Aligned ((days [sampleTask] none).getD 0 0)
    ∧ effectiveRangeStart [sampleTask] none = (none : Option ℤ).getD (minWeekStart [sampleTask]) :=
  days_seven_consecutive [sampleTask] none (by decide)

/-- Claim C3: Previous and Next replace the anchor by its current value
(defaulting to `minWeekStart` when null) shifted by minus or plus seven days
and clamped into `[minWeekStart, maxWeekStart]`; under the data-model
invariant `startDate ≤ endDate` the stored result always lies in that
interval. -/
theorem prev_next_shift_clamped (ts : List TimelineTask) (hne : ts ≠ [])
    (hwf : ∀ t ∈ ts, t.startDate ≤ t.endDate) (rangeStart : Option ℤ) :
    handlePrevious ts rangeStart
      = some (clampToRange ts (effectiveRangeStart ts rangeStart - 7))
    ∧ handleNext ts rangeStart
      = some (clampToRange ts (effectiveRangeStart ts rangeStart + 7))
    ∧ (∀ d : ℤ,
        handlePrevious ts rangeStart = some d ∨ handleNext ts rangeStart = some d →
        minWeekStart ts ≤ d ∧ d ≤ maxWeekStart ts) := by
  have hb := minWeekStart_le_maxWeekStart ts hne hwf
  refine ⟨?_, rfl, ?_⟩
  · simp [handlePrevious, addDays, effectiveRangeStart, sub_eq_add_neg]
  · rintro d (hd | hd) <;>
    · simp only [handlePrevious, handleNext, Option.some.injEq] at hd
      subst hd
      exact clampToRange_bounds ts hb _

/-- Witness for C3 at the one-task list with anchor day 100. -/
theorem prev_next_shift_clamped_witness :
    handlePrevious [sampleTask] (some 100)
      = some (clampToRange [sampleTask] (effectiveRangeStart [sampleTask] (some 100) - 7))
    ∧ handleNext [sampleTask] (some 100)
      = some (clampToRange [sampleTask] (effectiveRangeStart [sampleTask] (some 100) + 7))
    ∧ (∀ d : ℤ,
        handlePrevious [sampleTask] (some 100) = some d
          ∨ handleNext [sampleTask] (some 100) = some d →
        minWeekStart [sampleTask] ≤ d ∧ d ≤ maxWeekStart [sampleTask]) :=
  prev_next_shift_clamped [sampleTask] (by decide) (by decide) (some 100)

/-- Claim C10: in every reachable state a non-null stored anchor is
week-aligned, the effective anchor is week-aligned, and the first visible day
is the effective anchor itself. -/
theorem reachable_anchor_aligned (ts : List TimelineTask) (rangeStart : Option ℤ)
    (h : Reachable ts rangeStart) :
    (∀ a : ℤ, rangeStart = some a → Aligned a)
    ∧ Aligned (effectiveRangeStart ts rangeStart)
    ∧ rangeStartDate ts rangeStart = effectiveRangeStart ts rangeStart := by
  have key : ∀ a : ℤ, rangeStart = some a → Aligned a := by
    induction h with
    | init => intro a ha; exact absurd ha (by simp)
    | act h today a ih =>
        rename_i rs0
        intro b hb
        cases a with
        | previous =>
            simp only [step, handlePrevious, Option.some.injEq] at hb
            subst hb
            refine clampToRange_aligned ts (Aligned.addDays_neg_seven ?_)
            cases rs0 with
            | none => exact aligned_minWeekStart ts
            | some v => exact ih v rfl
        | next =>
            simp only [step, handleNext, Option.some.injEq] at hb
            subst hb
            refine clampToRange_aligned ts (Aligned.addDays_seven ?_)
            cases rs0 with
            | none => exact aligned_minWeekStart ts
            | some v => exact ih v rfl
        | goToday =>
            simp only [step, handleToday, Option.some.injEq] at hb
            subst hb
            exact aligned_startOfWeek today
  have heff : Aligned (effectiveRangeStart ts rangeStart) := by
    cases rangeStart with
    | none => exact aligned_minWeekStart ts
    | some v => exact key v rfl
  refine ⟨key, heff, ?_⟩
  rw [rangeStartDate_eq]
  exact heff

/-- Witness for C10 at the initial state of the one-task list. -/
theorem reachable_anchor_aligned_witness :
    (∀ a : ℤ, (none : Option ℤ) = some a → Aligned a)
    ∧ Aligned (effectiveRangeStart [sampleTask] none)
    ∧ rangeStartDate [sampleTask] none = effectiveRangeStart [sampleTask] none :=
  reachable_anchor_aligned [sampleTask] none Reachable.init

/-- Claim C1 as stated is false: after a Today click on a date whose week
start precedes `minWeekStart`, the state is reachable, `canGoPrevious` is
false, yet the current week start differs from `minWeekStart`.  Here the task
runs over days 14-15 (`minWeekStart = 11`) and Today is clicked on day 0,
storing anchor `-3`. -/
theorem canGo_bounds_claim_counterexample :
    Reachable [laterTask] (some (-3))
    ∧ canGoPrevious [laterTask] (some (-3)) = false
    ∧ currentWeekStart [laterTask] (some (-3)) ≠ minWeekStart [laterTask] := by
  refine ⟨?_, by decide, by decide⟩
  have h : Reachable [laterTask] (step [laterTask] 0 none Action.goToday) :=
    Reachable.act Reachable.init 0 Action.goToday
  have e : step [laterTask] 0 none Action.goToday = some (-3) := by decide
  rw [e] at h
  exact h

/-- Claim C1 amended: in every reachable state with a non-empty task list,
`canGoPrevious` is false iff the current week start is at most
`minWeekStart`, and `canGoNext` is false iff it is at least `maxWeekStart`
(equality cannot be required because Today may move the anchor outside the
bounds). -/
theorem canGo_flags_iff_bounds (ts : List TimelineTask) (hne : ts ≠ [])
    (rangeStart : Option ℤ) (h : Reachable ts rangeStart) :
    (canGoPrevious ts rangeStart = false ↔ currentWeekStart ts rangeStart ≤ minWeekStart ts)
    ∧ (canGoNext ts rangeStart = false ↔ maxWeekStart ts ≤ currentWeekStart ts rangeStart) := by
  constructor <;> simp [canGoPrevious, canGoNext, not_lt]

/-- Witness for the amended C1 at the initial state of the one-task list. -/
theorem canGo_flags_iff_bounds_witness :
    (canGoPrevious [sampleTask] none = false
      ↔ currentWeekStart [sampleTask] none ≤ minWeekStart [sampleTask])
    ∧ (canGoNext [sampleTask] none = false
      ↔ maxWeekStart [sampleTask] ≤ currentWeekStart [sampleTask] none) :=
  canGo_flags_iff_bounds [sampleTask] (by decide) none Reachable.init

/-- Claim C5: the no-tasks overlay is shown iff no task interval meets the
half-open window `[day0, day6 + 1)` — for every task the test
`startDate < day6 + 1 ∧ day0 ≤ endDate` fails — and when it is shown the day
grid is still rendered underneath. -/
theorem no_tasks_overlay_iff (ts : List TimelineTask) (rangeStart : Option ℤ) (today : ℤ)
    (hne : ts ≠ []) :
    (hasTasksInRange ts rangeStart = false ↔
      ∀ t ∈ ts, ¬(t.startDate < rangeEndDate ts rangeStart
                  ∧ rangeStartDate ts rangeStart ≤ t.endDate))
    ∧ rangeEndDate ts rangeStart = rangeStartDate ts rangeStart + 7
    ∧ (hasTasksInRange ts rangeStart = false →
        render ts rangeStart today
          = RenderOutput.grid (days ts rangeStart) true (todayIndex ts rangeStart today)
              (ts.map fun t =>
                (leftPct t (rangeStartDate ts rangeStart),
                 widthPct t (rangeStartDate ts rangeStart)))) := by
  refine ⟨?_, rangeEndDate_eq_start_add_seven ts rangeStart, ?_⟩
  · unfold hasTasksInRange
    rw [List.any_eq_false]
    constructor
    · intro h t ht
      have := h t ht
      simpa using this
    · intro h t ht
      have := h t ht
      simpa using this
  · intro hfalse
    unfold render
    rw [if_neg (by simpa [List.length_eq_zero] using hne), hfalse]
    rfl

/-- Witness for C5 at the one-task list with unset anchor. -/
theorem no_tasks_overlay_iff_witness :
    (hasTasksInRange [sampleTask] none = false ↔
      ∀ t ∈ [sampleTask], ¬(t.startDate < rangeEndDate [sampleTask] none
                  ∧ rangeStartDate [sampleTask] none ≤ t.endDate))
    ∧ rangeEndDate [sampleTask] none = rangeStartDate [sampleTask] none + 7
    ∧ (hasTasksInRange [sampleTask] none = false →
        render [sampleTask] none 4
          = RenderOutput.grid (days [sampleTask] none) true (todayIndex [sampleTask] none 4)
              ([sampleTask].map fun t =>
                (leftPct t (rangeStartDate [sampleTask] none),
                 widthPct t (rangeStartDate [sampleTask] none)))) :=
  no_tasks_overlay_iff [sampleTask] none 4 (by decide)

/-- Claim C6 as stated is false at the window boundary: with the task on days
4-5 and unset anchor the window covers days 4-10, day 11 is outside the
visible seven days, yet the marker index is the clamped offset 6 and not the
midpoint 3, because the code checks the closed interval `[day0, day7]`. -/
theorem today_marker_boundary_counterexample :
    (11 ∉ days [sampleTask] none)
    ∧ todayIndex [sampleTask] none 11 = 6
    ∧ todayIndex [sampleTask] none 11 ≠ 3 := by decide

/-- Claim C6 amended: for a non-empty task list the marker index is the
whole-day offset of today from `day0` clamped to `[0, 6]` whenever
`day0 ≤ today ≤ day0 + 7` (the closed interval the code tests, one day past
the last visible day), and the midpoint 3 exactly when today lies strictly
outside that closed interval. -/
theorem todayIndex_characterization (ts : List TimelineTask) (rangeStart : Option ℤ)
    (today : ℤ) (hne : ts ≠ []) :
    (rangeStartDate ts rangeStart ≤ today → today ≤ rangeStartDate ts rangeStart + 7 →
      todayIndex ts rangeStart today
        = clamp (differenceInDays today (rangeStartDate ts rangeStart)) 0 6)
    ∧ ((today < rangeStartDate ts rangeStart ∨ rangeStartDate ts rangeStart + 7 < today) →
      todayIndex ts rangeStart today = 3) := by
  have hend := rangeEndDate_eq_start_add_seven ts rangeStart
  constructor
  · intro h1 h2
    unfold todayIndex todayInRange isWithinInterval
    rw [if_pos]
    · rw [days_length]
      norm_num
    · rw [hend]
      simpa using ⟨h1, h2⟩
  · intro h
    unfold todayIndex todayInRange isWithinInterval
    rw [if_neg]
    · rw [days_length]
      norm_num
    · rw [hend]
      simp only [Bool.and_eq_true, decide_eq_true_eq, not_and]
      omega

/-- Witness for the amended C6 at the one-task list, today inside the window. -/
theorem todayIndex_characterization_witness :
    (rangeStartDate [sampleTask] none ≤ 5 → (5 : ℤ) ≤ rangeStartDate [sampleTask] none + 7 →
      todayIndex [sampleTask] none 5
        = clamp (differenceInDays 5 (rangeStartDate [sampleTask] none)) 0 6)
    ∧ (((5 : ℤ) < rangeStartDate [sampleTask] none
          ∨ rangeStartDate [sampleTask] none + 7 < 5) →
      todayIndex [sampleTask] none 5 = 3) :=
  todayIndex_characterization [sampleTask] none 5 (by decide)

/-- Claim C2: for every task the rendered bar geometry at the visible window
follows the spec formulas with `N = 7`: `leftPct = clamp(startOffset/N*100, 0, 100)`,
`rightPct = clamp(endOffset/N*100, 0, 100)`, `minWidthPct = 100/N` and
`widthPct = clamp(rightPct - leftPct + minWidthPct, minWidthPct, 100)`, where
the offsets are the whole-day differences of the task dates from `day0`. -/
theorem bar_geometry_formulas (ts : List TimelineTask) (rangeStart : Option ℤ) (today : ℤ)
    (hne : ts ≠ []) :
    render ts rangeStart today
      = RenderOutput.grid (days ts rangeStart) (!hasTasksInRange ts rangeStart)
          (todayIndex ts rangeStart today)
          (ts.map fun t =>
            (leftPct t (rangeStartDate ts rangeStart),
             widthPct t (rangeStartDate ts rangeStart)))
    ∧ ∀ t : TimelineTask, ∀ day0 : ℤ,
        leftPct t day0
          = max 0 (min 100 (((differenceInDays t.startDate day0 : ℤ) : ℚ) / 7 * 100))
        ∧ rightPct t day0
          = max 0 (min 100 (((differenceInDays t.endDate day0 : ℤ) : ℚ) / 7 * 100))
        ∧ minWidthPct = 100 / 7
        ∧ widthPct t day0
          = max minWidthPct (min 100 (rightPct t day0 - leftPct t day0 + minWidthPct)) := by
  constructor
  · unfold render
    rw [if_neg (by simpa [List.length_eq_zero] using hne)]
  · intro t day0
    refine ⟨?_, ?_, ?_, rfl⟩
    · unfold leftPct clamp startOffset
      norm_num [totalDays]
    · unfold rightPct clamp endOffset
      norm_num [totalDays]
    · unfold minWidthPct totalDays
      norm_num

/-- Witness for C2 at the one-task list with unset anchor and today on day 4. -/
theorem bar_geometry_formulas_witness :
    render [sampleTask] none 4
      = RenderOutput.grid (days [sampleTask] none) (!hasTasksInRange [sampleTask] none)
          (todayIndex [sampleTask] none 4)
          ([sampleTask].map fun t =>
            (leftPct t (rangeStartDate [sampleTask] none),
             widthPct t (rangeStartDate [sampleTask] none)))
    ∧ ∀ t : TimelineTask, ∀ day0 : ℤ,
        leftPct t day0
          = max 0 (min 100 (((differenceInDays t.startDate day0 : ℤ) : ℚ) / 7 * 100))
        ∧ rightPct t day0
          = max 0 (min 100 (((differenceInDays t.endDate day0 : ℤ) : ℚ) / 7 * 100))
        ∧ minWidthPct = 100 / 7
        ∧ widthPct t day0
          = max minWidthPct (min 100 (rightPct t day0 - leftPct t day0 + minWidthPct)) :=
  bar_geometry_formulas [sampleTask] none 4 (by decide)

/-- Claim C7: every bar has width at least `minWidthPct = 100/7 > 0`, and a
task lying entirely before the window (`endDate < day0`, with
`startDate ≤ endDate`) renders at the left edge with exactly the minimum
width. -/
theorem bar_min_width (t : TimelineTask) (day0 : ℤ)
    (hwf : t.startDate ≤ t.endDate) (hbefore : t.endDate < day0) :
    minWidthPct = 100 / 7
    ∧ 0 < minWidthPct
    ∧ (∀ u : TimelineTask, ∀ e : ℤ, minWidthPct ≤ widthPct u e)
    ∧ leftPct t day0 = 0
    ∧ widthPct t day0 = minWidthPct := by
  have hmw : minWidthPct = 100 / 7 := by unfold minWidthPct totalDays; norm_num
  have hl : leftPct t day0 = 0 := leftPct_eq_zero (by omega)
  have hr : rightPct t day0 = 0 := rightPct_eq_zero hbefore
  refine ⟨hmw, by rw [hmw]; norm_num, ?_, hl, ?_⟩
  · intro u e
    unfold widthPct clamp
    exact le_max_left _ _
  · unfold widthPct
    rw [hl, hr]
    unfold clamp
    have hz : (0 : ℚ) - 0 + minWidthPct = minWidthPct := by ring
    rw [hz, min_eq_right (by rw [hmw]; norm_num), max_self]

/-- Witness for C7: the sample task (days 4-5) against a window starting at
day 10. -/
theorem bar_min_width_witness :
    minWidthPct = 100 / 7
    ∧ 0 < minWidthPct
    ∧ (∀ u : TimelineTask, ∀ e : ℤ, minWidthPct ≤ widthPct u e)
    ∧ leftPct sampleTask 10 = 0
    ∧ widthPct sampleTask 10 = minWidthPct :=
  bar_min_width sampleTask 10 (by decide) (by decide)

end TimelineGantt
